import Mathlib

/-!
Verification of `scripts/bump_version.py`: a shallow embedding of the script's
functions over `List Char` strings, together with theorems settling the
specification's claims.  Python strings are modelled as `List Char` (ASCII
case mapping and ASCII whitespace/digits, which is what the manifests and
commit conventions use); fallible code returns `Except PyError`.
-/

/-- Python whitespace characters (the ASCII set stripped by `str.strip()` and
matched by `\s`): space, tab, newline, carriage return, vertical tab and form
feed, by code point. -/
def pyIsSpace (c : Char) : Bool :=
  c.toNat == 32 || c.toNat == 9 || c.toNat == 10 || c.toNat == 13 ||
    c.toNat == 11 || c.toNat == 12

/-- Python `str.lstrip()`: drop leading whitespace. -/
def lstrip (l : List Char) : List Char := l.dropWhile pyIsSpace

/-- Drop trailing whitespace (Python `str.rstrip()`). -/
def rstrip (l : List Char) : List Char := (l.reverse.dropWhile pyIsSpace).reverse

/-- Python `str.strip()`. -/
def pyStrip (l : List Char) : List Char := rstrip (lstrip l)

/-- ASCII lower-casing of one character (Python `str.lower()` on ASCII text). -/
def pyToLower (c : Char) : Char :=
  if 65 ≤ c.toNat ∧ c.toNat ≤ 90 then Char.ofNat (c.toNat + 32) else c

/-- ASCII upper-casing of one character (used to state case-insensitivity). -/
def pyToUpper (c : Char) : Char :=
  if 97 ≤ c.toNat ∧ c.toNat ≤ 122 then Char.ofNat (c.toNat - 32) else c

/-- Python `str.lower()` on ASCII text. -/
def pyLower (l : List Char) : List Char := l.map pyToLower

/-- Match a literal character sequence at the head of a string; return the
rest of the string on success. -/
def matchLit : List Char → List Char → Option (List Char)
  | [], l => some l
  | _ :: _, [] => none
  | a :: lit, c :: l => if a = c then matchLit lit l else none

/-- Python `str.startswith(lit)`. -/
def startsWithLit (lit l : List Char) : Bool := (matchLit lit l).isSome

/-- The three bump categories (the strings `'major'`/`'minor'`/`'patch'` in
the script; `None` is modelled by `Option BumpType`). -/
inductive BumpType
  | major
  | minor
  | patch
deriving DecidableEq

/-- The Python string value standing behind a `BumpType`. -/
def BumpType.pyStr : BumpType → List Char
  | .major => "major".data
  | .minor => "minor".data
  | .patch => "patch".data

/-- `get_bump_type_from_commit`: strip surrounding whitespace, lowercase, and
test the three literal name starts in order. -/
def get_bump_type_from_commit (commit_msg : List Char) : Option BumpType :=
  let m := pyLower (pyStrip commit_msg)
  if startsWithLit "release(".data m then some .major
  else if startsWithLit "feature(".data m then some .minor
  else if startsWithLit "fix(".data m then some .patch
  else none

/-- Python `\d` on ASCII text: a decimal digit, by code point. -/
def pyIsDigit (c : Char) : Bool := 48 ≤ c.toNat && c.toNat ≤ 57

/-- The decimal digit character for `n < 10`. -/
def digitChar (n : Nat) : Char := Char.ofNat (48 + n)

/-- Decimal rendering, fuel-driven so that it reduces in the kernel; the fuel
bounds the number of digits. -/
def natDigitsAux : Nat → Nat → List Char
  | 0, _ => []
  | fuel + 1, n =>
    if n < 10 then [digitChar n]
    else natDigitsAux fuel (n / 10) ++ [digitChar (n % 10)]

/-- Decimal rendering of a natural number (Python `str(int)`). -/
def natDigits (n : Nat) : List Char := natDigitsAux (n + 1) n

/-- Numeric value of a list of decimal digit characters (Python `int(...)`). -/
def digitsToNat (l : List Char) : Nat := l.foldl (fun a c => 10 * a + (c.toNat - 48)) 0

/-- Python exceptions raised by the script. -/
inductive PyError
  | valueError (msg : List Char)
  | fileNotFound
deriving DecidableEq

deriving instance DecidableEq for Except

/-- `re.match(r'(\d+)\.(\d+)\.(\d+)', s)`: the three leading dot-separated
digit groups, anchored at the start; trailing characters are ignored. -/
def tryParseVer (s : List Char) : Option (Nat × Nat × Nat) :=
  let d1 := s.takeWhile pyIsDigit
  let r1 := s.dropWhile pyIsDigit
  if d1.isEmpty then none else
  match r1 with
  | '.' :: r2 =>
    let d2 := r2.takeWhile pyIsDigit
    let r3 := r2.dropWhile pyIsDigit
    if d2.isEmpty then none else
    match r3 with
    | '.' :: r4 =>
      let d3 := r4.takeWhile pyIsDigit
      if d3.isEmpty then none
      else some (digitsToNat d1, digitsToNat d2, digitsToNat d3)
    | _ => none
  | _ => none

/-- `parse_version`: parse into a `(major, minor, patch)` triple, raising
`ValueError` on failure. -/
def parse_version (s : List Char) : Except PyError (Nat × Nat × Nat) :=
  match tryParseVer s with
  | some t => .ok t
  | none => .error (.valueError ("Invalid version format: ".data ++ s))

/-- `bump_version`: parse, then rebuild the version string according to the
bump type (any type outside the three categories returns the input). -/
def bump_version (version_str : List Char) (bump_type : Option BumpType) :
    Except PyError (List Char) :=
  match parse_version version_str with
  | .error e => .error e
  | .ok (major, minor, patch) =>
    match bump_type with
    | some .major => .ok (natDigits (major + 1) ++ ".0.0".data)
    | some .minor => .ok (natDigits major ++ ".".data ++ natDigits (minor + 1) ++ ".0".data)
    | some .patch => .ok (natDigits major ++ ".".data ++ natDigits minor ++ ".".data ++ natDigits (patch + 1))
    | none => .ok version_str

/-- The matcher shared by the script's version regexes: at the current
position match `version\s*=\s*"[^"]+"` and return the text of capture
group 1 (`version\s*=\s*"`), the quoted body (`[^"]+`), and the rest of the
input after the closing quote. -/
def tryMatchVer (l : List Char) : Option (List Char × List Char × List Char) :=
  match matchLit "version".data l with
  | none => none
  | some r1 =>
    let w1 := r1.takeWhile pyIsSpace
    let r2 := r1.dropWhile pyIsSpace
    match r2 with
    | '=' :: r3 =>
      let w2 := r3.takeWhile pyIsSpace
      let r4 := r3.dropWhile pyIsSpace
      match r4 with
      | '"' :: r5 =>
        let body := r5.takeWhile (fun c => !(c == '"'))
        let r6 := r5.dropWhile (fun c => !(c == '"'))
        if body.isEmpty then none
        else
          match r6 with
          | '"' :: r7 => some ("version".data ++ w1 ++ ['='] ++ w2 ++ ['"'], body, r7)
          | _ => none
      | _ => none
    | _ => none

/-- `re.match(r'^version\s*=\s*"([^"]+)"', line)`: the quoted version value
of a line that starts (without leading whitespace) with a version key. -/
def lineVersion (l : List Char) : Option (List Char) :=
  (tryMatchVer l).map (fun x => x.2.1)

/-- `re.match(r'^\s*version\s*=\s*"[^"]+"', line)` as a Bool: like
`lineVersion` but whitespace-tolerant at the start of the line. -/
def matchesVersionLine (l : List Char) : Bool :=
  (tryMatchVer (l.dropWhile pyIsSpace)).isSome

/-- One step of `re.sub(r'(version\s*=\s*")[^"]+(")', ...)`'s left-to-right
scan, fuel-driven so that it reduces in the kernel: at each position either
rewrite a match (keeping group 1 and the closing quote, replacing the body
with the new version) or move one character forward. -/
def subVersionLineAux (v : List Char) : Nat → List Char → List Char
  | 0, l => l
  | _ + 1, [] => []
  | fuel + 1, c :: cs =>
    match tryMatchVer (c :: cs) with
    | some (g1, _, rest) => g1 ++ v ++ '"' :: subVersionLineAux v fuel rest
    | none => c :: subVersionLineAux v fuel cs

/-- `re.sub(r'(version\s*=\s*")[^"]+(")', rf'\g<1>{new_version}\g<2>', line)`. -/
def subVersionLine (v : List Char) (l : List Char) : List Char :=
  subVersionLineAux v l.length l

/-- Python `content.split('\n')`. -/
def splitNl : List Char → List (List Char)
  | [] => [[]]
  | c :: rest =>
    if c = '\n' then [] :: splitNl rest
    else
      match splitNl rest with
      | [] => [[c]]
      | l :: ls => (c :: l) :: ls

/-- Python `'\n'.join(lines)`. -/
def joinNl (lines : List (List Char)) : List Char := (lines.intersperse ['\n']).flatten

/-- The suffixes of the content that start just after a newline, in order:
with the whole content these are the positions at which `re.MULTILINE`'s `^`
can anchor. -/
def lineStartTails : List Char → List (List Char)
  | [] => []
  | c :: rest => if c = '\n' then rest :: lineStartTails rest else lineStartTails rest

/-- All line-start positions of the content (the whole string, then the
suffix after each newline), left to right. -/
def lineStartSuffixes (content : List Char) : List (List Char) :=
  content :: lineStartTails content

/-- The scan of `re.search(r'^version\s*=\s*"([^"]+)"', content,
re.MULTILINE)`: try the version pattern at each line-start position from
left to right and return the first capture; `\s*` and `[^"]+` also match
newlines, so a match may span lines.  Fuel-driven so that it reduces in the
kernel; the remaining length bounds the number of line starts left. -/
def searchVerAux : Nat → List Char → Option (List Char)
  | 0, _ => none
  | fuel + 1, l =>
    match tryMatchVer l with
    | some x => some x.2.1
    | none =>
      match l.dropWhile (fun c => !(c == '\n')) with
      | [] => none
      | _ :: rest => searchVerAux fuel rest

/-- `get_current_version`: the capture of the first line-start-anchored match
of `version\s*=\s*"([^"]+)"` anywhere in the file (the match may continue
across newlines); `ValueError` when no line-start position begins a match.
The path interpolated into the real error message is not modelled. -/
def get_current_version (content : List Char) : Except PyError (List Char) :=
  match searchVerAux (content.length + 1) content with
  | some v => .ok v
  | none => .error (.valueError "Could not find version".data)

/-- The `[package]` section header. -/
def pkgHdr : List Char := "[package]".data

/-- Does the (stripped) line open a bracketed section? (`startswith('[')`) -/
def headIsBracket : List Char → Bool
  | '[' :: _ => true
  | _ => false

/-- The `in_package_section` state transition of `update_cargo_toml`'s loop
for one line. -/
def scanStep (s : Bool) (line : List Char) : Bool :=
  if pyStrip line = pkgHdr then true
  else if s && headIsBracket (pyStrip line) && !(pyStrip line == pkgHdr) then false
  else s

/-- The `in_package_section` state after scanning a list of lines. -/
def scanState (s : Bool) (lines : List (List Char)) : Bool := lines.foldl scanStep s

/-- The per-line trace of `in_package_section` states, as in effect when the
version test runs on each line (after that line's own transition). -/
def statesFrom (s : Bool) : List (List Char) → List Bool
  | [] => []
  | line :: rest =>
    let s1 := scanStep s line
    s1 :: statesFrom s1 rest

/-- The line loop of `update_cargo_toml`: returns the rewritten lines and the
`version_updated` flag. -/
def update_lines (v : List Char) (inPkg : Bool) : List (List Char) → List (List Char) × Bool
  | [] => ([], false)
  | line :: rest =>
    if pyStrip line = pkgHdr then
      let p := update_lines v true rest
      (line :: p.1, p.2)
    else
      let inPkg2 := if inPkg && headIsBracket (pyStrip line) && !(pyStrip line == pkgHdr)
        then false else inPkg
      if inPkg2 && matchesVersionLine line then
        let p := update_lines v inPkg2 rest
        (subVersionLine v line :: p.1, true)
      else
        let p := update_lines v inPkg2 rest
        (line :: p.1, p.2)

/-- `update_cargo_toml`: rewrite the version value inside the `[package]`
section; the file content is rejoined and written only when a replacement
occurred.  Returns the resulting file content and the
`version_updated` flag. -/
def update_cargo_toml (content : List Char) (new_version : List Char) :
    List Char × Bool :=
  let p := update_lines new_version false (splitNl content)
  (if p.2 then joinNl p.1 else content, p.2)

mutual

/-- JSON values as produced by `json.loads` (numbers modelled as integers;
the manifest only holds strings and objects).  Arrays and objects carry
their own list types so that recursion over them is structural. -/
inductive Json
  | null
  | bool (b : Bool)
  | num (i : Int)
  | str (s : List Char)
  | arr (elems : JsonElems)
  | obj (fields : JsonFields)

/-- The elements of a JSON array. -/
inductive JsonElems
  | nil
  | cons (hd : Json) (tl : JsonElems)

/-- The ordered key/value bindings of a JSON object (a Python `dict`;
`json.loads` keeps one binding per key). -/
inductive JsonFields
  | nil
  | cons (key : List Char) (val : Json) (tl : JsonFields)

end

/-- First value bound to a key in a JSON object (Python `dict` lookup). -/
def getKey : JsonFields → List Char → Option Json
  | .nil, _ => none
  | .cons k x tl, key => if k = key then some x else getKey tl key

/-- Python `dict` assignment: replace the value of an existing key in place,
else append the new binding at the end. -/
def setKey : JsonFields → List Char → Json → JsonFields
  | .nil, key, v => .cons key v .nil
  | .cons k x tl, key, v =>
    if k = key then .cons key v tl else .cons k x (setKey tl key v)

/-- Python `data.get('version') != new_version` (negated): a JSON value
compares equal to a Python string only when it is that string. -/
def jsonEqStr : Option Json → List Char → Bool
  | some (.str s), v => s == v
  | _, _ => false

/-- Lower-case hexadecimal digit. -/
def toHexDigit (n : Nat) : Char := if n < 10 then digitChar n else Char.ofNat (87 + n)

/-- Four lower-case hexadecimal digits. -/
def hex4 (n : Nat) : List Char :=
  [toHexDigit (n / 4096 % 16), toHexDigit (n / 256 % 16), toHexDigit (n / 16 % 16),
   toHexDigit (n % 16)]

/-- `json.dumps` escaping of one string character (`ensure_ascii=True`). -/
def escapeChar (c : Char) : List Char :=
  if c = '"' then ['\\', '"']
  else if c = '\\' then ['\\', '\\']
  else if c = '\n' then ['\\', 'n']
  else if c = '\t' then ['\\', 't']
  else if c = '\r' then ['\\', 'r']
  else if c = '\x08' then ['\\', 'b']
  else if c = '\x0c' then ['\\', 'f']
  else if 32 ≤ c.toNat ∧ c.toNat ≤ 126 then [c]
  else if c.toNat < 65536 then '\\' :: 'u' :: hex4 c.toNat
  else
    let n := c.toNat - 65536
    ('\\' :: 'u' :: hex4 (55296 + n / 1024)) ++ ('\\' :: 'u' :: hex4 (56320 + n % 1024))

/-- A JSON string literal with escapes. -/
def dumpStr (s : List Char) : List Char := '"' :: (s.map escapeChar).flatten ++ ['"']

/-- Python `str(int)`. -/
def intStr (i : Int) : List Char := if i < 0 then '-' :: natDigits i.natAbs else natDigits i.natAbs

/-- `n` spaces. -/
def spaces (n : Nat) : List Char := List.replicate n ' '

/-- Concatenate with a separator (`sep.join` in Python). -/
def joinSep (sep : List Char) (ls : List (List Char)) : List Char :=
  (ls.intersperse sep).flatten

mutual

/-- `json.dumps(value, indent=2)` at a given current indentation. -/
def dumpsVal (ind : Nat) : Json → List Char
  | .null => "null".data
  | .bool true => "true".data
  | .bool false => "false".data
  | .num i => intStr i
  | .str s => dumpStr s
  | .arr .nil => "[]".data
  | .arr (.cons h t) =>
    '[' :: '\n' :: dumpsElems (ind + 2) (.cons h t) ++ '\n' :: spaces ind ++ [']']
  | .obj .nil => ['\x7b', '\x7d']
  | .obj (.cons k v t) =>
    '\x7b' :: '\n' :: dumpsFields (ind + 2) (.cons k v t) ++ '\n' :: spaces ind ++ ['\x7d']

/-- The `,\n`-separated, indented items of an array. -/
def dumpsElems (ind : Nat) : JsonElems → List Char
  | .nil => []
  | .cons h .nil => spaces ind ++ dumpsVal ind h
  | .cons h (.cons h2 t) =>
    spaces ind ++ dumpsVal ind h ++ ',' :: '\n' :: dumpsElems ind (.cons h2 t)

/-- The `,\n`-separated, indented `"key": value` items of an object. -/
def dumpsFields (ind : Nat) : JsonFields → List Char
  | .nil => []
  | .cons k v .nil => spaces ind ++ dumpStr k ++ ':' :: ' ' :: dumpsVal ind v
  | .cons k v (.cons k2 v2 t) =>
    spaces ind ++ dumpStr k ++ ':' :: ' ' :: dumpsVal ind v ++
      ',' :: '\n' :: dumpsFields ind (.cons k2 v2 t)

end

/-- `json.dumps(data, indent=2)` of a top-level object. -/
def dumps (d : JsonFields) : List Char := dumpsVal 0 (.obj d)

/-- `update_tauri_conf`: the file is its raw content paired with the parsed
top-level JSON object (`json.loads` succeeding is a premise of the model;
a parse failure aborts the whole script and is outside the claims).  When the
top-level `version` differs from the target the document is rewritten with
2-space indentation and a trailing newline; otherwise the file is untouched.
Returns the resulting file and whether it was updated. -/
def update_tauri_conf (file : List Char × JsonFields)
    (new_version : List Char) : (List Char × JsonFields) × Bool :=
  if jsonEqStr (getKey file.2 "version".data) new_version then (file, false)
  else
    let d := setKey file.2 "version".data (.str new_version)
    ((dumps d ++ ['\n'], d), true)

/-- The manifest files visible to one invocation: the root `Cargo.toml`, the
optional `src-tauri/Cargo.toml`, and the optional `src-tauri/tauri.conf.json`
(raw bytes paired with their parsed JSON object).  `none` means the file does
not exist. -/
structure FS where
  root_cargo : Option (List Char)
  tauri_cargo : Option (List Char)
  tauri_conf : Option (List Char × JsonFields)

namespace bump

/-- `main` after argument parsing: the commit message, the optional base
version (`None` when absent; Python truthiness makes an empty string behave
like an absent one), and the file system.  Returns the final file system, the
list of printed stdout lines, and the exit code; fatal exceptions are
`Except.error`. -/
def main (commit_msg : List Char) (base_version : Option (List Char)) (fs : FS) :
    Except PyError (FS × List (List Char) × Nat) :=
  match get_bump_type_from_commit commit_msg with
  | none => .ok (fs, [], 0)
  | some bump_type =>
    match fs.root_cargo with
    | none => .error .fileNotFound
    | some root_content =>
      match get_current_version root_content with
      | .error e => .error e
      | .ok current_version =>
        let version_to_bump :=
          match base_version with
          | some b => if b.isEmpty then current_version else b
          | none => current_version
        match bump_version version_to_bump (some bump_type) with
        | .error e => .error e
        | .ok new_version =>
          if new_version = current_version then
            .ok (fs, ["No version change: ".data ++ current_version], 0)
          else
            let r := update_cargo_toml root_content new_version
            let fs1 : FS := if r.2 then { fs with root_cargo := some r.1 } else fs
            let upd1 : List (List Char) := if r.2 then ["Cargo.toml".data] else []
            let step2 :=
              match fs1.tauri_cargo with
              | none => (fs1, upd1)
              | some tc =>
                let r2 := update_cargo_toml tc new_version
                if r2.2 then
                  ({ fs1 with tauri_cargo := some r2.1 }, upd1 ++ ["src-tauri/Cargo.toml".data])
                else (fs1, upd1)
            let step3 :=
              match step2.1.tauri_conf with
              | none => step2
              | some tj =>
                let r3 := update_tauri_conf tj new_version
                if r3.2 then
                  ({ step2.1 with tauri_conf := some r3.1 },
                    step2.2 ++ ["src-tauri/tauri.conf.json".data])
                else step2
            if step3.2.isEmpty then
              .ok (step3.1, ["No changes made for version: ".data ++ current_version], 0)
            else
              .ok (step3.1,
                ["Version bumped: ".data ++ version_to_bump ++ " -> ".data ++ new_version ++
                  " (".data ++ bump_type.pyStr ++ ")".data,
                 "Updated: ".data ++ joinSep ", ".data step3.2], 0)

end bump
theorem char_toNat_ofNat_lt (n : Nat) (h : n < 55296) : (Char.ofNat n).toNat = n := by
  rw [Char.ofNat, dif_pos (Or.inl h)]
  rfl

theorem pyIsSpace_pyToUpper (c : Char) : pyIsSpace (pyToUpper c) = pyIsSpace c := by
  unfold pyToUpper
  split
  · rename_i h
    have ht : (Char.ofNat (c.toNat - 32)).toNat = c.toNat - 32 :=
      char_toNat_ofNat_lt _ (by omega)
    have h1 : pyIsSpace (Char.ofNat (c.toNat - 32)) = false := by
      simp [pyIsSpace, ht]; omega
    have h2 : pyIsSpace c = false := by
      simp [pyIsSpace]; omega
    rw [h1, h2]
  · rfl

theorem pyToLower_pyToUpper (c : Char) : pyToLower (pyToUpper c) = pyToLower c := by
  unfold pyToUpper
  split
  · rename_i h
    have ht : (Char.ofNat (c.toNat - 32)).toNat = c.toNat - 32 :=
      char_toNat_ofNat_lt _ (by omega)
    unfold pyToLower
    rw [if_pos (by rw [ht]; omega), if_neg (by omega), ht]
    rw [show c.toNat - 32 + 32 = c.toNat by omega, Char.ofNat_toNat]
  · rfl

theorem lstrip_append_ws (ws l : List Char) (h : ∀ c ∈ ws, pyIsSpace c = true) :
    lstrip (ws ++ l) = lstrip l := by
  unfold lstrip
  exact List.dropWhile_append_of_pos h

theorem rstrip_append_ws (ws l : List Char) (h : ∀ c ∈ ws, pyIsSpace c = true) :
    rstrip (l ++ ws) = rstrip l := by
  unfold rstrip
  rw [List.reverse_append, List.dropWhile_append_of_pos (by
    intro c hc
    exact h c (List.mem_reverse.mp hc))]

theorem rstrip_cons_ns (c : Char) (t : List Char) (h : pyIsSpace c = false) :
    rstrip (c :: t) = c :: rstrip t := by
  unfold rstrip
  rw [List.reverse_cons, List.dropWhile_append]
  split
  · rename_i he
    have ht : t.reverse.dropWhile pyIsSpace = [] := by
      cases hx : t.reverse.dropWhile pyIsSpace with
      | nil => rfl
      | cons a b => rw [hx] at he; simp at he
    simp [List.dropWhile_cons, h, ht]
  · simp [List.dropWhile_cons, h]
theorem lstrip_eq_nil (l : List Char) (h : ∀ c ∈ l, pyIsSpace c = true) :
    lstrip l = [] := by
  unfold lstrip
  exact List.dropWhile_eq_nil_iff.mpr h

theorem pyStrip_pad (ws1 m ws2 : List Char)
    (h1 : ∀ c ∈ ws1, pyIsSpace c = true) (h2 : ∀ c ∈ ws2, pyIsSpace c = true) :
    pyStrip (ws1 ++ m ++ ws2) = pyStrip m := by
  unfold pyStrip
  rw [List.append_assoc, lstrip_append_ws _ _ h1]
  unfold lstrip
  rw [List.dropWhile_append]
  split
  · rename_i he
    have hm : m.dropWhile pyIsSpace = [] := by
      cases hx : m.dropWhile pyIsSpace with
      | nil => rfl
      | cons a b => rw [hx] at he; simp at he
    rw [List.dropWhile_eq_nil_iff.mpr h2, hm]
  · exact rstrip_append_ws ws2 _ h2

theorem lstrip_map_upper (l : List Char) :
    lstrip (l.map pyToUpper) = (lstrip l).map pyToUpper := by
  unfold lstrip
  rw [List.dropWhile_map]
  congr 1
  congr 1
  funext c
  exact pyIsSpace_pyToUpper c

theorem rstrip_map_upper (l : List Char) :
    rstrip (l.map pyToUpper) = (rstrip l).map pyToUpper := by
  unfold rstrip
  rw [← List.map_reverse, List.dropWhile_map, List.map_reverse]
  have hp : (pyIsSpace ∘ pyToUpper) = pyIsSpace := by
    funext c
    exact pyIsSpace_pyToUpper c
  rw [hp]

theorem pyStrip_map_upper (l : List Char) :
    pyStrip (l.map pyToUpper) = (pyStrip l).map pyToUpper := by
  unfold pyStrip
  rw [lstrip_map_upper, rstrip_map_upper]

theorem pyLower_map_upper (l : List Char) :
    pyLower (l.map pyToUpper) = pyLower l := by
  unfold pyLower
  rw [List.map_map]
  congr 1
  funext c
  exact pyToLower_pyToUpper c

theorem classify_pad (ws1 msg ws2 : List Char)
    (h1 : ∀ c ∈ ws1, pyIsSpace c = true) (h2 : ∀ c ∈ ws2, pyIsSpace c = true) :
    get_bump_type_from_commit (ws1 ++ msg ++ ws2) = get_bump_type_from_commit msg := by
  unfold get_bump_type_from_commit
  rw [pyStrip_pad ws1 msg ws2 h1 h2]

theorem classify_map_upper (msg : List Char) :
    get_bump_type_from_commit (msg.map pyToUpper) = get_bump_type_from_commit msg := by
  unfold get_bump_type_from_commit
  rw [pyStrip_map_upper, pyLower_map_upper]
theorem digitChar_toNat (n : Nat) (h : n < 10) : (digitChar n).toNat = 48 + n := by
  unfold digitChar
  exact char_toNat_ofNat_lt _ (by omega)

theorem digitChar_isDigit (n : Nat) (h : n < 10) : pyIsDigit (digitChar n) = true := by
  simp [pyIsDigit, digitChar_toNat n h]
  omega

theorem natDigitsAux_digits (fuel : Nat) : ∀ (n : Nat), ∀ c ∈ natDigitsAux fuel n, pyIsDigit c = true := by
  induction fuel with
  | zero => intro n c hc; simp [natDigitsAux] at hc
  | succ f ih =>
    intro n c hc
    unfold natDigitsAux at hc
    split at hc
    · rename_i h
      simp at hc
      subst hc
      exact digitChar_isDigit n h
    · rename_i h
      rcases List.mem_append.mp hc with h1 | h2
      · exact ih _ c h1
      · simp at h2
        subst h2
        exact digitChar_isDigit _ (Nat.mod_lt _ (by omega))

theorem natDigitsAux_ne_nil (fuel n : Nat) (h : 0 < fuel) : natDigitsAux fuel n ≠ [] := by
  cases fuel with
  | zero => omega
  | succ f =>
    unfold natDigitsAux
    split
    · simp
    · simp

theorem digitsToNat_append_digit (l : List Char) (c : Char) :
    digitsToNat (l ++ [c]) = 10 * digitsToNat l + (c.toNat - 48) := by
  unfold digitsToNat
  rw [List.foldl_append]
  rfl

theorem digitsToNat_natDigitsAux (fuel : Nat) : ∀ (n : Nat), n < fuel →
    digitsToNat (natDigitsAux fuel n) = n := by
  induction fuel with
  | zero => omega
  | succ f ih =>
    intro n hn
    unfold natDigitsAux
    split
    · rename_i h10
      simp [digitsToNat, digitChar_toNat n h10]
    · rename_i h10
      have hdiv : n / 10 < n := Nat.div_lt_self (by omega) (by omega)
      rw [digitsToNat_append_digit, ih (n / 10) (by omega)]
      rw [digitChar_toNat _ (Nat.mod_lt _ (by omega))]
      have := Nat.div_add_mod n 10
      omega

theorem digitsToNat_natDigits (n : Nat) : digitsToNat (natDigits n) = n :=
  digitsToNat_natDigitsAux (n + 1) n (by omega)

theorem natDigits_digits (n : Nat) : ∀ c ∈ natDigits n, pyIsDigit c = true :=
  natDigitsAux_digits (n + 1) n

theorem natDigits_ne_nil (n : Nat) : natDigits n ≠ [] :=
  natDigitsAux_ne_nil (n + 1) n (by omega)

theorem takeWhile_digits_append (d r : List Char) (hd : ∀ c ∈ d, pyIsDigit c = true)
    (hr : ∀ c, r.head? = some c → pyIsDigit c = false) :
    (d ++ r).takeWhile pyIsDigit = d ∧ (d ++ r).dropWhile pyIsDigit = r := by
  have hr2 : r.takeWhile pyIsDigit = [] ∧ r.dropWhile pyIsDigit = r := by
    cases r with
    | nil => exact ⟨rfl, rfl⟩
    | cons c t =>
      have := hr c rfl
      constructor
      · simp [List.takeWhile_cons, this]
      · simp [List.dropWhile_cons, this]
  constructor
  · rw [List.takeWhile_append_of_pos hd, hr2.1, List.append_nil]
  · rw [List.dropWhile_append_of_pos hd, hr2.2]
theorem isEmpty_false_of_ne_nil (l : List Char) (h : l ≠ []) : l.isEmpty = false := by
  cases l with
  | nil => exact absurd rfl h
  | cons a t => rfl

theorem tryParseVer_structured (d1 d2 d3 rest : List Char)
    (h1 : d1 ≠ []) (h2 : d2 ≠ []) (h3 : d3 ≠ [])
    (hd1 : ∀ c ∈ d1, pyIsDigit c = true) (hd2 : ∀ c ∈ d2, pyIsDigit c = true)
    (hd3 : ∀ c ∈ d3, pyIsDigit c = true)
    (hrest : ∀ c, rest.head? = some c → pyIsDigit c = false) :
    tryParseVer (d1 ++ '.' :: (d2 ++ '.' :: (d3 ++ rest))) =
      some (digitsToNat d1, digitsToNat d2, digitsToNat d3) := by
  have hdot1 : ∀ c, ('.' :: (d2 ++ '.' :: (d3 ++ rest))).head? = some c → pyIsDigit c = false := by
    intro c hc
    simp at hc
    subst hc
    decide
  have hdot2 : ∀ c, ('.' :: (d3 ++ rest)).head? = some c → pyIsDigit c = false := by
    intro c hc
    simp at hc
    subst hc
    decide
  obtain ⟨t1, dr1⟩ := takeWhile_digits_append d1 _ hd1 hdot1
  obtain ⟨t2, dr2⟩ := takeWhile_digits_append d2 _ hd2 hdot2
  obtain ⟨t3, dr3⟩ := takeWhile_digits_append d3 rest hd3 hrest
  simp only [tryParseVer, t1, dr1, t2, dr2, t3, dr3,
    isEmpty_false_of_ne_nil d1 h1, isEmpty_false_of_ne_nil d2 h2, isEmpty_false_of_ne_nil d3 h3,
    Bool.false_eq_true, if_false]

theorem tryParseVer_render (x y z : Nat) :
    tryParseVer (natDigits x ++ '.' :: (natDigits y ++ '.' :: natDigits z)) = some (x, y, z) := by
  have h := tryParseVer_structured (natDigits x) (natDigits y) (natDigits z) []
    (natDigits_ne_nil x) (natDigits_ne_nil y) (natDigits_ne_nil z)
    (natDigits_digits x) (natDigits_digits y) (natDigits_digits z)
    (by intro c hc; simp at hc)
  rw [List.append_nil] at h
  rw [h, digitsToNat_natDigits, digitsToNat_natDigits, digitsToNat_natDigits]
theorem ne_nil_of_isEmpty_false (l : List Char) (h : ¬ l.isEmpty = true) : l ≠ [] := by
  cases l with
  | nil => simp at h
  | cons a t => simp

theorem tryParseVer_some_decomp (s : List Char) (a b c : Nat)
    (h : tryParseVer s = some (a, b, c)) :
    ∃ d1 d2 d3 rest, s = d1 ++ '.' :: (d2 ++ '.' :: (d3 ++ rest)) ∧
      d1 ≠ [] ∧ d2 ≠ [] ∧ d3 ≠ [] ∧
      (∀ ch ∈ d1, pyIsDigit ch = true) ∧ (∀ ch ∈ d2, pyIsDigit ch = true) ∧
      (∀ ch ∈ d3, pyIsDigit ch = true) := by
  simp only [tryParseVer] at h
  split at h
  · exact absurd h (by simp)
  · rename_i he1
    split at h
    · rename_i r2 heq1
      split at h
      · exact absurd h (by simp)
      · rename_i he2
        split at h
        · rename_i r4 heq2
          split at h
          · exact absurd h (by simp)
          · rename_i he3
            refine ⟨s.takeWhile pyIsDigit, r2.takeWhile pyIsDigit, r4.takeWhile pyIsDigit,
              r4.dropWhile pyIsDigit, ?_, ne_nil_of_isEmpty_false _ he1,
              ne_nil_of_isEmpty_false _ he2, ne_nil_of_isEmpty_false _ he3,
              fun ch hch => List.mem_takeWhile_imp hch,
              fun ch hch => List.mem_takeWhile_imp hch,
              fun ch hch => List.mem_takeWhile_imp hch⟩
            conv_lhs => rw [← List.takeWhile_append_dropWhile pyIsDigit s]
            rw [heq1]
            congr 1
            congr 1
            conv_lhs => rw [← List.takeWhile_append_dropWhile pyIsDigit r2]
            rw [heq2]
            congr 1
            congr 1
            exact (List.takeWhile_append_dropWhile pyIsDigit r4).symm
        · exact absurd h (by simp)
    · exact absurd h (by simp)
theorem matchLit_some_eq (lit : List Char) : ∀ l r, matchLit lit l = some r → l = lit ++ r := by
  induction lit with
  | nil =>
    intro l r h
    simp [matchLit] at h
    subst h
    rfl
  | cons a t ih =>
    intro l r h
    cases l with
    | nil => simp [matchLit] at h
    | cons c cs =>
      simp only [matchLit] at h
      split at h
      · rename_i he
        subst he
        rw [List.cons_append, ← ih cs r h]
      · exact absurd h (by simp)

theorem tryMatchVer_head_v (l g b r : List Char)
    (h : tryMatchVer l = some (g, b, r)) : ∃ t, l = 'v' :: t := by
  simp only [tryMatchVer] at h
  cases hm : matchLit "version".data l with
  | none => rw [hm] at h; simp at h
  | some r1 =>
    have he := matchLit_some_eq _ l r1 hm
    exact ⟨"ersion".data ++ r1, by rw [he]; rfl⟩

theorem matches_strip_head (l : List Char) (h : matchesVersionLine l = true) :
    ∃ t, pyStrip l = 'v' :: t := by
  unfold matchesVersionLine at h
  cases hm : tryMatchVer (l.dropWhile pyIsSpace) with
  | none => rw [hm] at h; simp at h
  | some x =>
    obtain ⟨g, bd, r⟩ := x
    obtain ⟨t, ht⟩ := tryMatchVer_head_v _ g bd r hm
    refine ⟨rstrip t, ?_⟩
    unfold pyStrip lstrip
    rw [ht]
    exact rstrip_cons_ns 'v' t (by decide)

theorem matches_false_of_strip_pkg (l : List Char) (h : pyStrip l = pkgHdr) :
    matchesVersionLine l = false := by
  cases hm : matchesVersionLine l with
  | false => rfl
  | true =>
    obtain ⟨t, ht⟩ := matches_strip_head l hm
    rw [h] at ht
    have h2 := congrArg List.head? ht
    simp [pkgHdr] at h2

theorem strip_not_bracket_of_matches (l : List Char) (h : matchesVersionLine l = true) :
    headIsBracket (pyStrip l) = false := by
  obtain ⟨t, ht⟩ := matches_strip_head l h
  rw [ht]
  rfl

theorem scanStep_pkg (s : Bool) (line : List Char) (h : pyStrip line = pkgHdr) :
    scanStep s line = true := by
  unfold scanStep
  rw [if_pos h]

theorem scanState_append (s : Bool) (l1 l2 : List (List Char)) :
    scanState s (l1 ++ l2) = scanState (scanState s l1) l2 := by
  unfold scanState
  exact List.foldl_append scanStep s l1 l2
theorem update_lines_flag_inside (v : List Char) (mid : List (List Char)) :
    ∀ (vline : List Char) (rest : List (List Char)),
    (∀ l ∈ mid, ¬(headIsBracket (pyStrip l) = true ∧ pyStrip l ≠ pkgHdr)) →
    matchesVersionLine vline = true →
    (update_lines v true (mid ++ vline :: rest)).2 = true := by
  induction mid with
  | nil =>
    intro vline rest _ hv
    have hnp : ¬ pyStrip vline = pkgHdr := by
      intro he
      rw [matches_false_of_strip_pkg vline he] at hv
      exact Bool.noConfusion hv
    have hbr : headIsBracket (pyStrip vline) = false := strip_not_bracket_of_matches vline hv
    simp [update_lines, if_neg hnp, hbr, hv]
  | cons l mid ih =>
    intro vline rest hmid hv
    by_cases hp : pyStrip l = pkgHdr
    · simp only [List.cons_append, update_lines, if_pos hp]
      exact ih vline rest (fun x hx => hmid x (List.mem_cons_of_mem _ hx)) hv
    · have hcond := hmid l (List.mem_cons_self _ _)
      have hbr : headIsBracket (pyStrip l) = false := by
        cases hb : headIsBracket (pyStrip l) with
        | false => rfl
        | true => exact absurd ⟨hb, hp⟩ hcond
      have hrec := ih vline rest (fun x hx => hmid x (List.mem_cons_of_mem _ hx)) hv
      cases hm : matchesVersionLine l <;>
        simp [update_lines, if_neg hp, hbr, hm, hrec]

theorem update_lines_flag_outer (v : List Char) (pre : List (List Char)) :
    ∀ (s : Bool) (h : List Char) (mid : List (List Char)) (vline : List Char)
      (rest : List (List Char)),
    pyStrip h = pkgHdr →
    (∀ l ∈ mid, ¬(headIsBracket (pyStrip l) = true ∧ pyStrip l ≠ pkgHdr)) →
    matchesVersionLine vline = true →
    (update_lines v s (pre ++ h :: (mid ++ vline :: rest))).2 = true := by
  induction pre with
  | nil =>
    intro s h mid vline rest hh hmid hv
    simp only [List.nil_append, update_lines, if_pos hh]
    exact update_lines_flag_inside v mid vline rest hmid hv
  | cons l pre ih =>
    intro s h mid vline rest hh hmid hv
    by_cases hp : pyStrip l = pkgHdr
    · simp only [List.cons_append, update_lines, if_pos hp]
      exact ih true h mid vline rest hh hmid hv
    · have ihs := ih s h mid vline rest hh hmid hv
      have ihf := ih false h mid vline rest hh hmid hv
      cases hbx : (s && headIsBracket (pyStrip l) && !(pyStrip l == pkgHdr)) <;>
        cases hm : matchesVersionLine l <;>
          simp [update_lines, if_neg hp, hbx, hm, ihs, ihf]
      all_goals cases s <;> simp [ihs, ihf]

theorem statesFrom_length (lines : List (List Char)) :
    ∀ s, (statesFrom s lines).length = lines.length := by
  induction lines with
  | nil => intro s; rfl
  | cons l rest ih =>
    intro s
    simp only [statesFrom, List.length_cons, ih]

theorem update_lines_eq_zip (v : List Char) (lines : List (List Char)) : ∀ (s : Bool),
    (update_lines v s lines).1 =
      List.zipWith
        (fun st line => if st && matchesVersionLine line then subVersionLine v line else line)
        (statesFrom s lines) lines := by
  induction lines with
  | nil => intro s; rfl
  | cons l rest ih =>
    intro s
    by_cases hp : pyStrip l = pkgHdr
    · have hs1 : scanStep s l = true := scanStep_pkg s l hp
      have hm : matchesVersionLine l = false := matches_false_of_strip_pkg l hp
      simp only [update_lines, statesFrom, if_pos hp, hs1, hm, List.zipWith_cons_cons,
        Bool.and_false, Bool.false_eq_true, if_false]
      rw [ih true]
    · have hs1 : (if s && headIsBracket (pyStrip l) && !(pyStrip l == pkgHdr) then false else s) =
          scanStep s l := by
        unfold scanStep
        rw [if_neg hp]
      simp only [update_lines, statesFrom, if_neg hp, hs1, List.zipWith_cons_cons]
      cases hsc : scanStep s l <;> cases hm : matchesVersionLine l <;>
        simp [hsc, hm, ih]
/-- C1: for every version string whose leading part is three dot-separated
decimal numbers — `parse_version` returns `(a, b, c)` — `bump_version`
increments exactly the targeted component and zeroes the less-significant
ones: Major gives `(a+1).0.0`, Minor gives `a.(b+1).0`, Patch gives
`a.b.(c+1)`.  Re-parsing each result recovers the expected triple, so the
more-significant components are unchanged. -/
theorem C1_bump_targets_component (s : List Char) (a b c : Nat)
    (h : parse_version s = .ok (a, b, c)) :
    bump_version s (some .major) = .ok (natDigits (a + 1) ++ ".0.0".data) ∧
    parse_version (natDigits (a + 1) ++ ".0.0".data) = .ok (a + 1, 0, 0) ∧
    bump_version s (some .minor) =
      .ok (natDigits a ++ ".".data ++ natDigits (b + 1) ++ ".0".data) ∧
    parse_version (natDigits a ++ ".".data ++ natDigits (b + 1) ++ ".0".data) =
      .ok (a, b + 1, 0) ∧
    bump_version s (some .patch) =
      .ok (natDigits a ++ ".".data ++ natDigits b ++ ".".data ++ natDigits (c + 1)) ∧
    parse_version (natDigits a ++ ".".data ++ natDigits b ++ ".".data ++ natDigits (c + 1)) =
      .ok (a, b, c + 1) := by
  have e1 : natDigits (a + 1) ++ ".0.0".data
      = natDigits (a + 1) ++ '.' :: (natDigits 0 ++ '.' :: natDigits 0) := by
    rw [show (".0.0".data : List Char) = '.' :: (natDigits 0 ++ '.' :: natDigits 0) by decide]
  have e2 : natDigits a ++ ".".data ++ natDigits (b + 1) ++ ".0".data
      = natDigits a ++ '.' :: (natDigits (b + 1) ++ '.' :: natDigits 0) := by
    rw [show (".0".data : List Char) = '.' :: natDigits 0 by decide]
    simp [List.append_assoc]
  have e3 : natDigits a ++ ".".data ++ natDigits b ++ ".".data ++ natDigits (c + 1)
      = natDigits a ++ '.' :: (natDigits b ++ '.' :: natDigits (c + 1)) := by
    simp [List.append_assoc]
  refine ⟨by simp [bump_version, h], ?_, by simp [bump_version, h], ?_,
    by simp [bump_version, h], ?_⟩
  · rw [e1]
    simp [parse_version, tryParseVer_render]
  · rw [e2]
    simp [parse_version, tryParseVer_render]
  · rw [e3]
    simp [parse_version, tryParseVer_render]

/-- Witness for C1 at the version string 1.2.3. -/
theorem C1_bump_targets_component_witness :
    bump_version "1.2.3".data (some .major) = .ok "2.0.0".data ∧
    bump_version "1.2.3".data (some .minor) = .ok "1.3.0".data ∧
    bump_version "1.2.3".data (some .patch) = .ok "1.2.4".data := by
  have h := C1_bump_targets_component "1.2.3".data 1 2 3 (by decide)
  exact ⟨h.1.trans (by decide), h.2.2.1.trans (by decide), h.2.2.2.2.1.trans (by decide)⟩

/-- C9: parse_version extracts the leading three dot-separated digit groups,
anchored at the start, ignoring trailing characters after the third group;
for every string not starting with that pattern it fails with a ValueError
carrying the offending string. -/
theorem C9_parse_version_leading_pattern (s : List Char) :
    (∀ d1 d2 d3 rest, d1 ≠ [] → d2 ≠ [] → d3 ≠ [] →
      (∀ ch ∈ d1, pyIsDigit ch = true) → (∀ ch ∈ d2, pyIsDigit ch = true) →
      (∀ ch ∈ d3, pyIsDigit ch = true) →
      (∀ ch, rest.head? = some ch → pyIsDigit ch = false) →
      s = d1 ++ '.' :: (d2 ++ '.' :: (d3 ++ rest)) →
      parse_version s = .ok (digitsToNat d1, digitsToNat d2, digitsToNat d3)) ∧
    ((¬ ∃ d1 d2 d3 rest, s = d1 ++ '.' :: (d2 ++ '.' :: (d3 ++ rest)) ∧
        d1 ≠ [] ∧ d2 ≠ [] ∧ d3 ≠ [] ∧ (∀ ch ∈ d1, pyIsDigit ch = true) ∧
        (∀ ch ∈ d2, pyIsDigit ch = true) ∧ (∀ ch ∈ d3, pyIsDigit ch = true)) →
      parse_version s = .error (.valueError ("Invalid version format: ".data ++ s))) := by
  constructor
  · intro d1 d2 d3 rest h1 h2 h3 hd1 hd2 hd3 hrest hs
    subst hs
    simp [parse_version, tryParseVer_structured d1 d2 d3 rest h1 h2 h3 hd1 hd2 hd3 hrest]
  · intro hno
    cases h : tryParseVer s with
    | none => simp [parse_version, h]
    | some t =>
      obtain ⟨x, y, z⟩ := t
      obtain ⟨d1, d2, d3, rest, hs, h1, h2, h3, hd1, hd2, hd3⟩ :=
        tryParseVer_some_decomp s x y z h
      exact absurd ⟨d1, d2, d3, rest, hs, h1, h2, h3, hd1, hd2, hd3⟩ hno

/-- Witness for C9: 1.2.3-beta.1 parses as (1, 2, 3); an all-letter string
fails with the error carrying the string. -/
theorem C9_parse_version_leading_pattern_witness :
    parse_version "1.2.3-beta.1".data = .ok (1, 2, 3) ∧
    parse_version "abc".data = .error (.valueError "Invalid version format: abc".data) := by
  constructor
  · have h := (C9_parse_version_leading_pattern "1.2.3-beta.1".data).1
      ['1'] ['2'] ['3'] "-beta.1".data (by decide) (by decide) (by decide)
      (by decide) (by decide) (by decide) (by decide) (by decide)
    exact h.trans (by decide)
  · have h := (C9_parse_version_leading_pattern "abc".data).2 ?_
    · exact h.trans (by decide)
    · rintro ⟨d1, d2, d3, rest, hs, h1, h2, h3, hd1, hd2, hd3⟩
      have hdot : ('.' : Char) ∈ "abc".data := by
        rw [hs]
        simp
      simp at hdot
/-- C2: the classifier strips surrounding whitespace and lowercases the
message, then tests release(/feature(/fix( in order; classification is
unchanged by whitespace padding and by upper-casing, and the padded
mixed-case message Release(x): y classifies as Major. -/
theorem C2_classifier_normalisation :
    (∀ ws1 msg ws2, (∀ ch ∈ ws1, pyIsSpace ch = true) → (∀ ch ∈ ws2, pyIsSpace ch = true) →
      get_bump_type_from_commit (ws1 ++ msg ++ ws2) = get_bump_type_from_commit msg) ∧
    (∀ msg, get_bump_type_from_commit (msg.map pyToUpper) = get_bump_type_from_commit msg) ∧
    get_bump_type_from_commit " Release(x): y ".data = some .major ∧
    (∀ msg,
      (get_bump_type_from_commit msg = some .major ↔
        startsWithLit "release(".data (pyLower (pyStrip msg)) = true) ∧
      (get_bump_type_from_commit msg = some .minor ↔
        (startsWithLit "release(".data (pyLower (pyStrip msg)) = false ∧
         startsWithLit "feature(".data (pyLower (pyStrip msg)) = true)) ∧
      (get_bump_type_from_commit msg = some .patch ↔
        (startsWithLit "release(".data (pyLower (pyStrip msg)) = false ∧
         startsWithLit "feature(".data (pyLower (pyStrip msg)) = false ∧
         startsWithLit "fix(".data (pyLower (pyStrip msg)) = true)) ∧
      (get_bump_type_from_commit msg = none ↔
        (startsWithLit "release(".data (pyLower (pyStrip msg)) = false ∧
         startsWithLit "feature(".data (pyLower (pyStrip msg)) = false ∧
         startsWithLit "fix(".data (pyLower (pyStrip msg)) = false))) := by
  refine ⟨classify_pad, classify_map_upper, by decide, ?_⟩
  intro msg
  cases h1 : startsWithLit "release(".data (pyLower (pyStrip msg)) <;>
    cases h2 : startsWithLit "feature(".data (pyLower (pyStrip msg)) <;>
      cases h3 : startsWithLit "fix(".data (pyLower (pyStrip msg)) <;>
        simp [get_bump_type_from_commit, h1, h2, h3]

/-- Witness for C2: whitespace padding around a mixed-case fix message does
not change its classification, and it classifies as Patch. -/
theorem C2_classifier_normalisation_witness :
    get_bump_type_from_commit ("  ".data ++ "Fix(ui): z".data ++ " ".data) =
      get_bump_type_from_commit "Fix(ui): z".data ∧
    get_bump_type_from_commit "Fix(ui): z".data = some .patch :=
  ⟨C2_classifier_normalisation.1 "  ".data "Fix(ui): z".data " ".data
    (by decide) (by decide), by decide⟩

/-- C3 counterexample: with two version lines inside the [package] section,
the writer rewrites both, so a later matching line is not copied unchanged
(line index 2 of the output differs from the input). -/
theorem C3_counterexample :
    update_cargo_toml "[package]\nversion = \"1.0.0\"\nversion = \"2.0.0\"".data "9.9.9".data =
      ("[package]\nversion = \"9.9.9\"\nversion = \"9.9.9\"".data, true) ∧
    (splitNl "[package]\nversion = \"9.9.9\"\nversion = \"9.9.9\"".data).get? 2 ≠
      (splitNl "[package]\nversion = \"1.0.0\"\nversion = \"2.0.0\"".data).get? 2 :=
  ⟨by decide, by decide⟩

/-- C3 amended: within the tracked [package] section every line matching the
version pattern (not only the first) has its quoted value replaced; lines
outside the tracked state or not matching are copied unchanged; the line
count is preserved; and when no replacement occurred the file is untouched. -/
theorem C3_all_matching_lines_replaced (content v : List Char) :
    (update_lines v false (splitNl content)).1 =
      List.zipWith
        (fun st line => if st && matchesVersionLine line then subVersionLine v line else line)
        (statesFrom false (splitNl content)) (splitNl content) ∧
    (update_lines v false (splitNl content)).1.length = (splitNl content).length ∧
    ((update_lines v false (splitNl content)).2 = false →
      (update_cargo_toml content v).1 = content) := by
  refine ⟨update_lines_eq_zip v (splitNl content) false, ?_, ?_⟩
  · rw [update_lines_eq_zip v (splitNl content) false, List.length_zipWith,
      statesFrom_length, Nat.min_self]
  · intro h
    simp [update_cargo_toml, h]

/-- Witness for C3 amended, on a file whose version line sits outside any
[package] section: no replacement happens and the file is untouched. -/
theorem C3_all_matching_lines_replaced_witness :
    (update_cargo_toml "version = \"1.0.0\"".data "2.0.0".data).1 = "version = \"1.0.0\"".data :=
  (C3_all_matching_lines_replaced "version = \"1.0.0\"".data "2.0.0".data).2.2 (by decide)

/-- C4 counterexample: after [package] is closed by [dependencies] the state
is off, but a repeated [package] header turns it back on, and the writer then
edits the re-entered section - the scanner does re-enter. -/
theorem C4_counterexample :
    scanState false ["[package]".data, "[dependencies]".data] = false ∧
    scanState false ["[package]".data, "[dependencies]".data, "[package]".data] = true ∧
    update_cargo_toml "[package]\n[dependencies]\n[package]\nversion = \"1.0.0\"".data
        "2.0.0".data =
      ("[package]\n[dependencies]\n[package]\nversion = \"2.0.0\"".data, true) :=
  ⟨rfl, rfl, by decide⟩

/-- C4 amended: a line whose stripped text equals [package] always sets the
tracked state, whatever the prior state (so the scanner re-enters after the
section was closed), and a matching version line following such a header is
again subject to replacement. -/
theorem C4_pkg_header_reenters (v : List Char) (s : Bool) (pre : List (List Char))
    (h vline : List Char) (rest : List (List Char))
    (hh : pyStrip h = pkgHdr) (hv : matchesVersionLine vline = true) :
    scanState s (pre ++ [h]) = true ∧
    (update_lines v s (pre ++ h :: vline :: rest)).2 = true := by
  constructor
  · rw [scanState_append]
    simp [scanState, scanStep_pkg _ _ hh]
  · have := update_lines_flag_outer v pre s h [] vline rest hh (by simp) hv
    simpa using this

/-- Witness for C4 amended: concrete re-entered section with an edited line. -/
theorem C4_pkg_header_reenters_witness :
    scanState false (["[package]".data, "[dependencies]".data] ++ ["[package]".data]) = true ∧
    (update_lines "2.0.0".data false
      (["[package]".data, "[dependencies]".data] ++
        "[package]".data :: "version = \"1.0.0\"".data :: [])).2 = true :=
  C4_pkg_header_reenters "2.0.0".data false ["[package]".data, "[dependencies]".data]
    "[package]".data "version = \"1.0.0\"".data [] (by decide) (by decide)
/-- C5: a commit message that classifies to no category makes the program
exit immediately with code 0, print nothing, and leave every manifest file
untouched. -/
theorem C5_none_category_no_op (commit : List Char) (base : Option (List Char)) (fs : FS)
    (h : get_bump_type_from_commit commit = none) :
    bump.main commit base fs = .ok (fs, [], 0) := by
  unfold bump.main
  rw [h]

/-- Witness for C5 at the commit message chore: cleanup. -/
theorem C5_none_category_no_op_witness :
    bump.main "chore: cleanup".data none
      { root_cargo := some "[package]\nversion = \"1.2.3\"".data,
        tauri_cargo := none, tauri_conf := none } =
    .ok ({ root_cargo := some "[package]\nversion = \"1.2.3\"".data,
           tauri_cargo := none, tauri_conf := none }, [], 0) :=
  C5_none_category_no_op "chore: cleanup".data none _ (by decide)

/-- C6 counterexample: a root manifest whose version line lies outside any
[package] section; the candidate 1.0.1 differs from the current 1.0.0, the
run passes the no-op guard, yet the root writer reports not-updated and the
program prints the fallback no-changes message. -/
theorem C6_counterexample :
    get_current_version "version = \"1.0.0\"".data = .ok "1.0.0".data ∧
    "1.0.1".data ≠ "1.0.0".data ∧
    update_cargo_toml "version = \"1.0.0\"".data "1.0.1".data =
      ("version = \"1.0.0\"".data, false) ∧
    bump.main "fix(a): b".data none
      { root_cargo := some "version = \"1.0.0\"".data, tauri_cargo := none, tauri_conf := none } =
      .ok ({ root_cargo := some "version = \"1.0.0\"".data, tauri_cargo := none,
             tauri_conf := none },
           ["No changes made for version: 1.0.0".data], 0) :=
  ⟨by decide, by decide, by decide, rfl⟩

/-- C6 amended: the root writer reports updated whenever the file contains a
[package] header line followed, before any other bracketed header, by a line
matching the version pattern; when no version line lies inside a tracked
[package] section the writer can report not-updated even though the candidate
differs from the current version, so the no-changes fallback is reachable. -/
theorem C6_update_in_pkg_section (content v : List Char) (pre mid rest : List (List Char))
    (h vline : List Char)
    (hsplit : splitNl content = pre ++ h :: (mid ++ vline :: rest))
    (hh : pyStrip h = pkgHdr)
    (hmid : ∀ l ∈ mid, ¬(headIsBracket (pyStrip l) = true ∧ pyStrip l ≠ pkgHdr))
    (hv : matchesVersionLine vline = true) :
    (update_cargo_toml content v).2 = true := by
  unfold update_cargo_toml
  simp only [hsplit]
  exact update_lines_flag_outer v pre false h mid vline rest hh hmid hv

/-- Witness for C6 amended: a [package] section with a name line between the
header and the version line is updated. -/
theorem C6_update_in_pkg_section_witness :
    (update_cargo_toml "[package]\nname = \"x\"\nversion = \"1.0.0\"".data "1.0.1".data).2 =
      true :=
  C6_update_in_pkg_section "[package]\nname = \"x\"\nversion = \"1.0.0\"".data "1.0.1".data
    [] ["name = \"x\"".data] [] "[package]".data "version = \"1.0.0\"".data
    (by decide) (by decide) (by decide) (by decide)

/-- C7 counterexample: with no base version supplied, after a first run has
bumped the root manifest to the target 1.2.4, a second run with the same
arguments does not report a no-op: it bumps again to 1.2.5 and writes the
root manifest. -/
theorem C7_counterexample_no_base :
    bump.main "fix(a): b".data none
      { root_cargo := some "[package]\nversion = \"1.2.3\"".data,
        tauri_cargo := none, tauri_conf := none } =
      .ok ({ root_cargo := some "[package]\nversion = \"1.2.4\"".data,
             tauri_cargo := none, tauri_conf := none },
           ["Version bumped: 1.2.3 -> 1.2.4 (patch)".data, "Updated: Cargo.toml".data], 0) ∧
    bump.main "fix(a): b".data none
      { root_cargo := some "[package]\nversion = \"1.2.4\"".data,
        tauri_cargo := none, tauri_conf := none } =
      .ok ({ root_cargo := some "[package]\nversion = \"1.2.5\"".data,
             tauri_cargo := none, tauri_conf := none },
           ["Version bumped: 1.2.4 -> 1.2.5 (patch)".data, "Updated: Cargo.toml".data], 0) ∧
    some "[package]\nversion = \"1.2.5\"".data ≠ some "[package]\nversion = \"1.2.4\"".data :=
  ⟨rfl, rfl, by decide⟩

/-- C7 amended: when a non-empty base version is supplied and the root
manifest is already at the target bump_version(base), the run reports no
version change, exits 0, and writes nothing. -/
theorem C7_second_run_with_base_noop (commit B cur : List Char) (t : BumpType) (fs : FS)
    (root : List Char)
    (hc : get_bump_type_from_commit commit = some t)
    (hroot : fs.root_cargo = some root)
    (hcur : get_current_version root = .ok cur)
    (hB : B ≠ [])
    (hbump : bump_version B (some t) = .ok cur) :
    bump.main commit (some B) fs = .ok (fs, ["No version change: ".data ++ cur], 0) := by
  simp [bump.main, hc, hroot, hcur, isEmpty_false_of_ne_nil B hB, hbump]

/-- Witness for C7 amended: second run with base 1.2.3 against a root already
at 1.2.4 is a no-op. -/
theorem C7_second_run_with_base_noop_witness :
    bump.main "fix(a): b".data (some "1.2.3".data)
      { root_cargo := some "[package]\nversion = \"1.2.4\"".data,
        tauri_cargo := none, tauri_conf := none } =
      .ok ({ root_cargo := some "[package]\nversion = \"1.2.4\"".data,
             tauri_cargo := none, tauri_conf := none },
           ["No version change: ".data ++ "1.2.4".data], 0) :=
  C7_second_run_with_base_noop "fix(a): b".data "1.2.3".data "1.2.4".data .patch
    { root_cargo := some "[package]\nversion = \"1.2.4\"".data,
      tauri_cargo := none, tauri_conf := none }
    "[package]\nversion = \"1.2.4\"".data
    (by decide) rfl (by decide) (by decide) (by decide)
theorem getKey_setKey_same : ∀ (d : JsonFields) (k : List Char) (v : Json),
    getKey (setKey d k v) k = some v
  | .nil, k, v => by simp [setKey, getKey]
  | .cons key val tl, k, v => by
    by_cases h : key = k
    · simp [setKey, h, getKey]
    · simp [setKey, h, getKey, getKey_setKey_same tl k v]

theorem getKey_setKey_other : ∀ (d : JsonFields) (k k2 : List Char) (v : Json),
    k2 ≠ k → getKey (setKey d k v) k2 = getKey d k2
  | .nil, k, k2, v, h => by
    simp only [setKey, getKey]
    rw [if_neg (fun he => h he.symm)]
  | .cons key val tl, k, k2, v, h => by
    by_cases hk : key = k
    · subst hk
      simp only [setKey, if_pos rfl, getKey]
      rw [if_neg (fun he => h he.symm), if_neg (fun he => h he.symm)]
    · simp only [setKey, if_neg hk, getKey]
      by_cases h2 : key = k2
      · rw [if_pos h2, if_pos h2]
      · rw [if_neg h2, if_neg h2]
        exact getKey_setKey_other tl k k2 v h

/-- C8: the structured-document writer on a document already at the target
version leaves the file byte-for-byte unmodified and reports not updated;
on a differing version it writes the 2-space-indented re-serialization plus
trailing newline of the document that is identical to the input except for
the version key, and reports updated. -/
theorem C8_tauri_writer_roundtrip (raw : List Char) (d : JsonFields) (v : List Char) :
    (jsonEqStr (getKey d "version".data) v = true →
      update_tauri_conf (raw, d) v = ((raw, d), false)) ∧
    (jsonEqStr (getKey d "version".data) v = false →
      update_tauri_conf (raw, d) v =
        ((dumps (setKey d "version".data (.str v)) ++ ['\n'],
          setKey d "version".data (.str v)), true) ∧
      getKey (setKey d "version".data (.str v)) "version".data = some (.str v) ∧
      (∀ k, k ≠ "version".data →
        getKey (setKey d "version".data (.str v)) k = getKey d k)) := by
  constructor
  · intro h
    simp [update_tauri_conf, h]
  · intro h
    exact ⟨by simp [update_tauri_conf, h], getKey_setKey_same d _ _,
      fun k hk => getKey_setKey_other d _ k _ hk⟩

/-- Witness for C8 on a two-key document: no-op at the equal version, and the
concrete re-serialization at a differing one. -/
theorem C8_tauri_writer_roundtrip_witness :
    update_tauri_conf
      ("old-bytes".data,
        .cons "version".data (.str "1.2.3".data) (.cons "name".data (.str "app".data) .nil))
      "1.2.3".data =
      (("old-bytes".data,
        .cons "version".data (.str "1.2.3".data) (.cons "name".data (.str "app".data) .nil)),
       false) ∧
    update_tauri_conf
      ("old-bytes".data,
        .cons "version".data (.str "1.2.3".data) (.cons "name".data (.str "app".data) .nil))
      "2.0.0".data =
      (("\x7b\n  \"version\": \"2.0.0\",\n  \"name\": \"app\"\n\x7d\n".data,
        .cons "version".data (.str "2.0.0".data) (.cons "name".data (.str "app".data) .nil)),
       true) :=
  ⟨(C8_tauri_writer_roundtrip "old-bytes".data
      (.cons "version".data (.str "1.2.3".data) (.cons "name".data (.str "app".data) .nil))
      "1.2.3".data).1 (by decide),
   (((C8_tauri_writer_roundtrip "old-bytes".data
      (.cons "version".data (.str "1.2.3".data) (.cons "name".data (.str "app".data) .nil))
      "2.0.0".data).2 (by decide)).1).trans (by rfl)⟩

theorem lineStartTails_eq_dropWhile (l : List Char) :
    lineStartTails l = (match l.dropWhile (fun c => !(c == '\n')) with
      | [] => []
      | _ :: rest => rest :: lineStartTails rest) := by
  induction l with
  | nil => rfl
  | cons c t ih =>
    by_cases h : c = '\n'
    · subst h
      simp [lineStartTails, List.dropWhile_cons]
    · simp [lineStartTails, List.dropWhile_cons, h, ih]

theorem searchVerAux_eq (fuel : Nat) : ∀ l : List Char, l.length < fuel →
    searchVerAux fuel l =
      (lineStartSuffixes l).findSome? (fun s => (tryMatchVer s).map (fun x => x.2.1)) := by
  induction fuel with
  | zero => omega
  | succ f ih =>
    intro l hl
    unfold searchVerAux
    cases hm : tryMatchVer l with
    | some x =>
      simp [lineStartSuffixes, List.findSome?_cons, hm]
    | none =>
      cases hd : l.dropWhile (fun c => !(c == '\n')) with
      | nil =>
        have ht : lineStartTails l = [] := by
          rw [lineStartTails_eq_dropWhile, hd]
        simp [hm, hd, lineStartSuffixes, List.findSome?_cons, ht]
      | cons c rest =>
        have ht : lineStartTails l = rest :: lineStartTails rest := by
          rw [lineStartTails_eq_dropWhile, hd]
        have hlen : rest.length < f := by
          have h1 : (l.dropWhile (fun c => !(c == '\n'))).length ≤ l.length :=
            (List.dropWhile_sublist _).length_le
          rw [hd] at h1
          simp only [List.length_cons] at h1
          omega
        simp only [hm, hd]
        rw [ih rest hlen]
        simp [lineStartSuffixes, List.findSome?_cons, hm, ht]

/-- C10 counterexample: the regex whitespace and quoted-body classes match
newlines, so a match may span lines.  On a file whose version assignment is
split across two lines the program succeeds although no single line matches,
and an earlier cross-line match beats the first matching line. -/
theorem C10_counterexample :
    get_current_version "version =\n\"1.0.0\"".data = .ok "1.0.0".data ∧
    (∀ l ∈ splitNl "version =\n\"1.0.0\"".data, lineVersion l = none) ∧
    get_current_version "[a]\nversion =\n\"9.9.9\"\nversion = \"1.0.0\"".data =
      .ok "9.9.9".data ∧
    lineVersion "version = \"1.0.0\"".data = some "1.0.0".data ∧
    "9.9.9".data ≠ "1.0.0".data :=
  ⟨by decide, by decide, by decide, by decide, by decide⟩

/-- C10 amended: get_current_version returns the capture of the first match
of the version pattern anchored at a line-start position (the whole file, or
just after a newline), scanning positions left to right, with no regard to
sections; the whitespace around the equals sign and the quoted body may span
newlines; it fails exactly when no line-start position begins a match; a
position starting with whitespace before the version key never matches. -/
theorem C10_first_match_at_line_start (content : List Char) :
    get_current_version content =
      (match (lineStartSuffixes content).findSome?
          (fun s => (tryMatchVer s).map (fun x => x.2.1)) with
       | some v => .ok v
       | none => .error (.valueError "Could not find version".data)) ∧
    ((∀ s ∈ lineStartSuffixes content, tryMatchVer s = none) →
      get_current_version content = .error (.valueError "Could not find version".data)) ∧
    (∀ l, tryMatchVer (' ' :: l) = none) := by
  have hc := searchVerAux_eq (content.length + 1) content (by omega)
  refine ⟨?_, ?_, ?_⟩
  · unfold get_current_version
    rw [hc]
  · intro h
    unfold get_current_version
    rw [hc, List.findSome?_eq_none_iff.mpr (fun s hs => by rw [h s hs]; rfl)]
  · intro l
    rfl

/-- Witness for C10 amended: a version line inside a different bracketed
section, before [package], wins; a file with no match at any line start
yields the error. -/
theorem C10_first_match_at_line_start_witness :
    get_current_version "[a]\nname".data =
      .error (.valueError "Could not find version".data) ∧
    get_current_version
      "[dependencies]\nversion = \"7.7.7\"\n[package]\nversion = \"1.0.0\"".data =
      .ok "7.7.7".data :=
  ⟨(C10_first_match_at_line_start "[a]\nname".data).2.1 (by decide), by decide⟩
